import Mathlib

/-!
Verification development for the scoop trading extension.

The definitions below are a shallow embedding of the TypeScript sources:

* `src/src/platforms/ProbableAdapter.ts` — order building, nonce
  resolution, precondition checks, EIP-712 signing, HMAC request
  signatures, and order submission;
* `src/src/wallet/approvals.ts` — approval checks and grants;
* `src/unnamed/part_011` (the proxy-wallet helper module) — proxy wallet
  creation and existence checks.

JavaScript `number` values are modelled as exact rationals (`ℚ`); the
adapter's arithmetic is decimal rounding on top of values that are exact
at every step it relies on, and each point where binary floating point
could diverge from the exact value is noted at the definition it
concerns.  JavaScript `bigint` values are modelled as `ℤ`/`ℕ`.  Stateful
operations (RPC reads, wallet prompts, transactions) are modelled by
passing in an environment describing the outcome of each external
interaction and returning the emitted events.
-/

namespace Scoop

/-! ### Rounding helpers (ProbableAdapter.buildOrder, lines 307-321)

The adapter defines `decimalPlaces`, `roundDown`, `roundUp` and
`roundNormal` locally inside `buildOrder`.  `decimalPlaces n ≤ dp` holds
for a rational exactly when `n * 10^dp` is an integer; values whose
decimal expansion is infinite (which surface in JS as ~17-digit floats)
have more than `dp` places for every precision the adapter uses. -/

/-- Models `decimalPlaces(n) <= dp`: `n` needs at most `dp` digits after
the decimal point, i.e. `n * 10^dp` is an integer. -/
def hasDecimalPlacesLe (n : ℚ) (dp : ℕ) : Prop :=
  (⌊n * 10 ^ dp⌋ : ℚ) = n * 10 ^ dp

instance (n : ℚ) (dp : ℕ) : Decidable (hasDecimalPlacesLe n dp) := by
  unfold hasDecimalPlacesLe; infer_instance

/-- Models `roundDown(n, dp)`: `decimalPlaces(n) <= dp ? n : Math.floor(n * 10 ** dp) / 10 ** dp`. -/
def roundDown (n : ℚ) (dp : ℕ) : ℚ :=
  if hasDecimalPlacesLe n dp then n else (⌊n * 10 ^ dp⌋ : ℚ) / 10 ^ dp

/-- Models `roundUp(n, dp)`: `decimalPlaces(n) <= dp ? n : Math.ceil(n * 10 ** dp) / 10 ** dp`. -/
def roundUp (n : ℚ) (dp : ℕ) : ℚ :=
  if hasDecimalPlacesLe n dp then n else (⌈n * 10 ^ dp⌉ : ℚ) / 10 ^ dp

/-- Number.EPSILON, an exact dyadic rational. -/
def jsEpsilon : ℚ := 1 / 2 ^ 52

/-- Models `roundNormal(n, dp)`:
`decimalPlaces(n) <= dp ? n : Math.round((n + Number.EPSILON) * 10 ** dp) / 10 ** dp`,
using `Math.round x = ⌊x + 1/2⌋` (JS rounds halves toward +∞). -/
def roundNormal (n : ℚ) (dp : ℕ) : ℚ :=
  if hasDecimalPlacesLe n dp then n
  else (⌊(n + jsEpsilon) * 10 ^ dp + 1 / 2⌋ : ℚ) / 10 ^ dp

/-- Models `Math.max(a, b)` on (non-NaN) numbers. -/
def jsMax (a b : ℚ) : ℚ := if a < b then b else a

/-- Models `Math.min(a, b)` on (non-NaN) numbers. -/
def jsMin (a b : ℚ) : ℚ := if b < a then b else a

/-- Models `parseUnits18(value.toFixed(6))` from `buildOrder`
(lines 350-356): `toFixed(6)` renders the value with exactly six
fractional digits (rounding to nearest if it had more) and
`parseUnits18` pads that string to 18 decimals, so the composite is
`round(q * 10^6) * 10^12`.  On the adapter's code paths the argument
always has at most four decimal places, so no rounding occurs. -/
def parseUnits18 (q : ℚ) : ℤ :=
  ⌊q * 10 ^ 6 + 1 / 2⌋ * 10 ^ 12

/-! ### Data model (src/src/types/order.ts) -/

/-- Models `TradeInput` (order.ts lines 3-16).  `amount` holds the value
of `parseFloat(params.amount)`; non-numeric amount strings (`NaN`) are
outside the model.  The optional `side` field (0 = BUY, 1 = SELL) is
carried but, as proved below, never read by `buildOrder`. -/
structure TradeInput where
  marketId : String
  outcome : String
  price : ℚ
  amount : ℚ
  expiration : ℕ
  makerAddress : String
  side : Option ℕ := none
deriving DecidableEq

/-- Models the `extra` record `buildOrder` attaches to an order
(ProbableAdapter.ts lines 365-375).  Numeric strings (`makerAmount`,
`takerAmount`, `feeRateBps`, `nonce`) are modelled by the integers they
denote; `tokenId` stays a string because `buildOrder` leaves it `''` and
the signing/submission paths treat the empty string specially.
`salt`/`proxyAddress`/API credentials are absent (`none`) until later
steps inject them. -/
structure OrderExtra where
  side : ℕ
  makerAmount : ℤ
  takerAmount : ℤ
  feeRateBps : ℕ
  nonce : ℕ
  signatureType : ℕ
  taker : String
  tokenId : String
  salt : Option ℕ := none
  proxyAddress : Option String := none
  apiKey : Option String := none
  apiSecret : Option String := none
  apiPassphrase : Option String := none
deriving DecidableEq

/-- Models `Order` (order.ts lines 18-27).  `price` and `amount` are the
numeric values behind the strings `String(price)` / `String(amount)`. -/
structure Order where
  marketId : String
  outcome : String
  price : ℚ
  amount : ℚ
  expiration : ℕ
  makerAddress : String
  extra : OrderExtra
deriving DecidableEq

/-- The null-taker placeholder used by `buildOrder`. -/
def zeroAddress : String := "0x0000000000000000000000000000000000000000"

/-- Models lines 305 and 323 of `buildOrder`: clamp the price into
`[0.0001, 0.9999]` and round the result to tick precision
(`RC.price = 2`). -/
def tickPrice (p : ℚ) : ℚ :=
  roundNormal (jsMin (jsMax p (1 / 10000)) (9999 / 10000)) 2

/-- Models the amount-precision clean-up `buildOrder` applies to the
computed paid amount (lines 335-338): if the product has more than
`RC.amount = 4` decimals it is rounded up at 8 decimals, then rounded
down to 4 if still too precise. -/
def clampAmount (m0 : ℚ) : ℚ :=
  if hasDecimalPlacesLe m0 4 then m0
  else
    let stepUp := roundUp m0 8
    if hasDecimalPlacesLe stepUp 4 then stepUp else roundDown stepUp 4

/-- Models `ProbableAdapter.buildOrder` (lines 296-377).  `side` is the
local constant 0 (the adapter always builds BUY orders), so the BUY
branch of lines 331-338 is always taken and the SELL branch
(lines 339-347) is dead code.  When the rounded price is 0 the JS
computes `amount / 0 = Infinity` (or `0 / 0 = NaN`); `roundDown` passes
that through and the final `BigInt` conversion of the resulting
`toFixed` string throws — modelled as `none`. -/
def buildOrder (params : TradeInput) : Option Order :=
  let side : ℕ := 0
  let amount := params.amount
  let price := tickPrice params.price
  if price = 0 then none else
  let size := amount / price
  -- BUY: user spends USDC (makerAmount), receives tokens (takerAmount)
  let rawTakerAmt := roundDown size 2
  let rawMakerAmt := clampAmount (rawTakerAmt * price)
  some
    { marketId := params.marketId
      outcome := params.outcome
      price := price
      amount := amount
      expiration := params.expiration
      makerAddress := params.makerAddress
      extra :=
        { side := side
          makerAmount := parseUnits18 rawMakerAmt
          takerAmount := parseUnits18 rawTakerAmt
          feeRateBps := 175
          nonce := 0
          signatureType := 0
          taker := zeroAddress
          tokenId := "" } }

/-! ### Arithmetic lemmas about the rounding helpers -/

theorem hasDecimalPlacesLe_iff (n : ℚ) (dp : ℕ) :
    hasDecimalPlacesLe n dp ↔ ∃ z : ℤ, (z : ℚ) = n * 10 ^ dp := by
  unfold hasDecimalPlacesLe
  constructor
  · intro h
    exact ⟨⌊n * 10 ^ dp⌋, h⟩
  · rintro ⟨z, hz⟩
    rw [← hz, Int.floor_intCast]

theorem hasDecimalPlacesLe_mul {a b : ℚ} {m n : ℕ}
    (ha : hasDecimalPlacesLe a m) (hb : hasDecimalPlacesLe b n) :
    hasDecimalPlacesLe (a * b) (m + n) := by
  rw [hasDecimalPlacesLe_iff] at ha hb ⊢
  obtain ⟨za, hza⟩ := ha
  obtain ⟨zb, hzb⟩ := hb
  refine ⟨za * zb, ?_⟩
  push_cast
  rw [hza, hzb]
  ring

theorem hasDecimalPlacesLe_roundDown (n : ℚ) (dp : ℕ) :
    hasDecimalPlacesLe (roundDown n dp) dp := by
  unfold roundDown
  split
  · assumption
  · rw [hasDecimalPlacesLe_iff]
    refine ⟨⌊n * 10 ^ dp⌋, ?_⟩
    rw [div_mul_cancel₀]
    positivity

theorem hasDecimalPlacesLe_roundNormal (n : ℚ) (dp : ℕ) :
    hasDecimalPlacesLe (roundNormal n dp) dp := by
  unfold roundNormal
  split
  · assumption
  · rw [hasDecimalPlacesLe_iff]
    refine ⟨⌊(n + jsEpsilon) * 10 ^ dp + 1 / 2⌋, ?_⟩
    rw [div_mul_cancel₀]
    positivity

theorem roundDown_nonneg {n : ℚ} (dp : ℕ) (h : 0 ≤ n) : 0 ≤ roundDown n dp := by
  unfold roundDown
  split
  · exact h
  · apply div_nonneg _ (by positivity)
    have : (0 : ℤ) ≤ ⌊n * 10 ^ dp⌋ := Int.floor_nonneg.mpr (by positivity)
    exact_mod_cast this

theorem roundNormal_nonneg {n : ℚ} (dp : ℕ) (h : 0 ≤ n) : 0 ≤ roundNormal n dp := by
  unfold roundNormal
  split
  · exact h
  · apply div_nonneg _ (by positivity)
    have h1 : (0 : ℚ) ≤ (n + jsEpsilon) * 10 ^ dp + 1 / 2 := by
      have : (0 : ℚ) ≤ jsEpsilon := by norm_num [jsEpsilon]
      positivity
    have : (0 : ℤ) ≤ ⌊(n + jsEpsilon) * 10 ^ dp + 1 / 2⌋ := Int.floor_nonneg.mpr h1
    exact_mod_cast this

theorem parseUnits18_nonneg {q : ℚ} (h : 0 ≤ q) : 0 ≤ parseUnits18 q := by
  unfold parseUnits18
  have : (0 : ℤ) ≤ ⌊q * 10 ^ 6 + 1 / 2⌋ := Int.floor_nonneg.mpr (by positivity)
  positivity

theorem tickPrice_nonneg (p : ℚ) : 0 ≤ tickPrice p := by
  unfold tickPrice
  apply roundNormal_nonneg
  unfold jsMin jsMax
  split
  · norm_num
  · split
    · norm_num
    · linarith [show ¬p < 1 / 10000 from by assumption]

theorem hasDecimalPlacesLe_tickPrice (p : ℚ) : hasDecimalPlacesLe (tickPrice p) 2 :=
  hasDecimalPlacesLe_roundNormal _ 2

theorem clampAmount_eq_self {m0 : ℚ} (h : hasDecimalPlacesLe m0 4) :
    clampAmount m0 = m0 := by
  unfold clampAmount
  rw [if_pos h]

/-! ### Claims C1, C2, C3, C10 — buildOrder -/

/-- C1.  For every buy `TradeInput` with positive amount that `buildOrder`
accepts, the received token quantity is `amount / tickPrice` rounded down
to size precision (2 decimal places), the paid amount is exactly that
quantity times the rounded price (the "round up to amount precision"
branch never fires because a ≤2-decimal quantity times a ≤2-decimal
price has at most 4 = amount-precision decimals), and both convert to
non-negative 18-decimal fixed-point integers `takerAmount` /
`makerAmount`. -/
theorem buildOrder_buy_rounding (t : TradeInput) (o : Order)
    (hA : 0 < t.amount) (h : buildOrder t = some o) :
    o.extra.takerAmount = parseUnits18 (roundDown (t.amount / tickPrice t.price) 2) ∧
    o.extra.makerAmount =
      parseUnits18 (roundDown (t.amount / tickPrice t.price) 2 * tickPrice t.price) ∧
    0 ≤ o.extra.takerAmount ∧ 0 ≤ o.extra.makerAmount := by
  have hdp : hasDecimalPlacesLe
      (roundDown (t.amount / tickPrice t.price) 2 * tickPrice t.price) 4 :=
    hasDecimalPlacesLe_mul (hasDecimalPlacesLe_roundDown _ 2) (hasDecimalPlacesLe_tickPrice _)
  have hq : 0 ≤ roundDown (t.amount / tickPrice t.price) 2 :=
    roundDown_nonneg 2 (div_nonneg hA.le (tickPrice_nonneg _))
  simp only [buildOrder] at h
  split at h
  · exact absurd h (by simp)
  · simp only [Option.some.injEq] at h
    subst h
    refine ⟨rfl, ?_, ?_, ?_⟩
    · simp only [clampAmount_eq_self hdp]
    · exact parseUnits18_nonneg hq
    · simp only [clampAmount_eq_self hdp]
      exact parseUnits18_nonneg (mul_nonneg hq (tickPrice_nonneg _))

/-- The spec's scenario input: spend 50 collateral units at price 0.42. -/
def scenarioInput : TradeInput :=
  { marketId := "mkt", outcome := "Yes", price := 42 / 100, amount := 50,
    expiration := 1700000000, makerAddress := "0xmaker" }

/-- The order `buildOrder` produces for `scenarioInput`: the receive
amount 119.047619… rounds down to 119.04, the paid amount is
119.04 × 0.42 = 49.9968, and both become 18-decimal integers. -/
def scenarioOrder : Order :=
  { marketId := "mkt", outcome := "Yes", price := 42 / 100, amount := 50,
    expiration := 1700000000, makerAddress := "0xmaker",
    extra :=
      { side := 0
        makerAmount := 49996800000000000000
        takerAmount := 119040000000000000000
        feeRateBps := 175
        nonce := 0
        signatureType := 0
        taker := zeroAddress
        tokenId := "" } }

theorem buildOrder_scenario_eval : buildOrder scenarioInput = some scenarioOrder := by
  norm_num [buildOrder, tickPrice, roundNormal, roundDown, clampAmount, jsMin, jsMax,
    hasDecimalPlacesLe, jsEpsilon, parseUnits18, scenarioInput, scenarioOrder]

theorem buildOrder_buy_rounding_scenario :
    0 < scenarioInput.amount ∧ buildOrder scenarioInput = some scenarioOrder ∧
    (scenarioOrder.extra.takerAmount =
        parseUnits18 (roundDown (scenarioInput.amount / tickPrice scenarioInput.price) 2) ∧
      scenarioOrder.extra.makerAmount =
        parseUnits18 (roundDown (scenarioInput.amount / tickPrice scenarioInput.price) 2 *
          tickPrice scenarioInput.price) ∧
      0 ≤ scenarioOrder.extra.takerAmount ∧ 0 ≤ scenarioOrder.extra.makerAmount) :=
  have h1 : 0 < scenarioInput.amount := by norm_num [scenarioInput]
  ⟨h1, buildOrder_scenario_eval,
    buildOrder_buy_rounding scenarioInput scenarioOrder h1 buildOrder_scenario_eval⟩

/-- Follows the spec's words: round to `dp` decimal places,
half-to-even (banker's rounding).  Used only to compare the spec's
claimed rounding mode against the adapter's actual one. -/
def specRoundHalfEven (n : ℚ) (dp : ℕ) : ℚ :=
  let x := n * 10 ^ dp
  let f := ⌊x⌋
  let r :=
    if x - f < 1 / 2 then f
    else if 1 / 2 < x - f then f + 1
    else if f % 2 = 0 then f else f + 1
  (r : ℚ) / 10 ^ dp

/-- An in-range input whose price 0.125 sits exactly on a tick
boundary. -/
def halfEvenProbe : TradeInput :=
  { marketId := "m", outcome := "Yes", price := 1 / 8, amount := 50,
    expiration := 0, makerAddress := "0xa" }

/-- C2 counterexample.  At input price 0.125 the adapter's tick rounding
(`Math.round` after adding `Number.EPSILON`, i.e. half-up) produces 0.13,
while round-half-to-even — the mode the spec claims — produces 0.12. -/
theorem tickPrice_not_half_even :
    (buildOrder halfEvenProbe).map Order.price = some (13 / 100) ∧
    specRoundHalfEven ((1 : ℚ) / 8) 2 = 12 / 100 ∧
    (13 / 100 : ℚ) ≠ 12 / 100 := by
  refine ⟨?_, ?_, by norm_num⟩
  · norm_num [buildOrder, tickPrice, roundNormal, roundDown, clampAmount, jsMin, jsMax,
      hasDecimalPlacesLe, jsEpsilon, parseUnits18, halfEvenProbe]
  · norm_num [specRoundHalfEven]

/-- C2 (amended).  `buildOrder` clamps the input price into
`[0.0001, 0.9999]` and rounds it to tick precision by half-up rounding
with an epsilon nudge (`Math.round((p + Number.EPSILON) * 100) / 100`),
not half-to-even; that rounded price (which can reach 0 or 1 at the
clamp boundaries) is returned in the order and used to compute the
amounts. -/
theorem buildOrder_price_clamped_rounded (t : TradeInput) (o : Order)
    (h : buildOrder t = some o) :
    o.price = tickPrice t.price ∧
    o.extra.takerAmount = parseUnits18 (roundDown (t.amount / tickPrice t.price) 2) := by
  simp only [buildOrder] at h
  split at h
  · exact absurd h (by simp)
  · simp only [Option.some.injEq] at h
    subst h
    exact ⟨rfl, rfl⟩

theorem buildOrder_price_clamped_rounded_witness :
    buildOrder scenarioInput = some scenarioOrder ∧
    (scenarioOrder.price = tickPrice scenarioInput.price ∧
      scenarioOrder.extra.takerAmount =
        parseUnits18 (roundDown (scenarioInput.amount / tickPrice scenarioInput.price) 2)) :=
  ⟨buildOrder_scenario_eval,
    buildOrder_price_clamped_rounded scenarioInput scenarioOrder buildOrder_scenario_eval⟩

/-- A malformed input: negative amount, ordinary price. -/
def negAmountInput : TradeInput :=
  { marketId := "m", outcome := "Yes", price := 42 / 100, amount := -5,
    expiration := 0, makerAddress := "0xa" }

/-- A well-formed input: in-range price 0.004, positive amount. -/
def tinyPriceInput : TradeInput :=
  { marketId := "m", outcome := "Yes", price := 4 / 1000, amount := 50,
    expiration := 0, makerAddress := "0xa" }

/-- C3 counterexample.  `buildOrder` does not fail on a non-positive
amount (amount −5 yields an order), and it does fail on a well-formed
input with in-range price 0.004 and positive amount (the tick rounding
collapses the price to 0 and the conversion throws). -/
theorem buildOrder_validation_counterexample :
    (buildOrder negAmountInput).isSome = true ∧
    negAmountInput.amount ≤ 0 ∧
    buildOrder tinyPriceInput = none ∧
    (0 < tinyPriceInput.price ∧ tinyPriceInput.price < 1 ∧ 0 < tinyPriceInput.amount) := by
  refine ⟨?_, by norm_num [negAmountInput], ?_, by norm_num [tinyPriceInput]⟩
  · norm_num [buildOrder, tickPrice, roundNormal, roundDown, clampAmount, jsMin, jsMax,
      hasDecimalPlacesLe, jsEpsilon, parseUnits18, negAmountInput]
  · norm_num [buildOrder, tickPrice, roundNormal, roundDown, clampAmount, jsMin, jsMax,
      hasDecimalPlacesLe, jsEpsilon, tinyPriceInput]

/-- C3 (amended).  `buildOrder` performs no input validation: it fails
exactly when the tick-rounded clamped price is zero (input price below
0.005), succeeding on any other input including non-positive amounts. -/
theorem buildOrder_none_iff_price_zero (t : TradeInput) :
    buildOrder t = none ↔ tickPrice t.price = 0 := by
  simp only [buildOrder]
  split
  · simp_all
  · simp_all

/-- C10.  `buildOrder` always emits `side = 0` (BUY) and
`signatureType = 0` (EOA direct), whatever the input — in particular it
never reads the `TradeInput.side` field, so a sell intent is still built
as a BUY order. -/
theorem buildOrder_always_buy_eoa (t : TradeInput) (o : Order)
    (h : buildOrder t = some o) :
    o.extra.side = 0 ∧ o.extra.signatureType = 0 := by
  simp only [buildOrder] at h
  split at h
  · exact absurd h (by simp)
  · simp only [Option.some.injEq] at h
    subst h
    exact ⟨rfl, rfl⟩

/-- A sell-intent input (`side = 1`): `buildOrder` still builds a BUY. -/
def sellIntentInput : TradeInput :=
  { marketId := "mkt", outcome := "No", price := 42 / 100, amount := 50,
    expiration := 1700000000, makerAddress := "0xmaker", side := some 1 }

/-- The order built for `sellIntentInput`: still `side = 0`,
`signatureType = 0`. -/
def sellIntentOrder : Order :=
  { marketId := "mkt", outcome := "No", price := 42 / 100, amount := 50,
    expiration := 1700000000, makerAddress := "0xmaker",
    extra :=
      { side := 0
        makerAmount := 49996800000000000000
        takerAmount := 119040000000000000000
        feeRateBps := 175
        nonce := 0
        signatureType := 0
        taker := zeroAddress
        tokenId := "" } }

theorem buildOrder_always_buy_eoa_witness :
    buildOrder sellIntentInput = some sellIntentOrder ∧
    (sellIntentOrder.extra.side = 0 ∧ sellIntentOrder.extra.signatureType = 0) :=
  have h : buildOrder sellIntentInput = some sellIntentOrder := by
    norm_num [buildOrder, tickPrice, roundNormal, roundDown, clampAmount, jsMin, jsMax,
      hasDecimalPlacesLe, jsEpsilon, parseUnits18, sellIntentInput, sellIntentOrder]
  ⟨h, buildOrder_always_buy_eoa sellIntentInput sellIntentOrder h⟩

/-! ### Nonce resolution, preconditions, signing
(ProbableAdapter.getMinNonce lines 384-430, verifyOrderPreconditions
lines 437-488, signOrder lines 490-539) -/

/-- Models `getMinNonce`: the loop over the four redundant BSC RPC
endpoints returns the first successful decoded result (a failed fetch or
an empty `0x` result moves to the next endpoint), then the MetaMask
fallback read is tried, and if everything failed the method returns
`0n`.  Each read outcome is `some v` for a successful decode and `none`
for failure. -/
def getMinNonce : List (Option ℕ) → Option ℕ → ℕ
  | [], wallet => wallet.getD 0
  | some v :: _, _ => v
  | none :: rest, wallet => getMinNonce rest wallet

/-- Parse a decimal-digit list, failing on any non-digit character. -/
def parseDecAux : List Char → ℕ → Option ℕ
  | [], acc => some acc
  | c :: cs, acc => if c.isDigit then parseDecAux cs (acc * 10 + (c.toNat - 48)) else none

/-- Parse a non-empty decimal numeral string. -/
def parseDec (s : String) : Option ℕ :=
  match s.data with
  | [] => none
  | l => parseDecAux l 0

/-- Models `BigInt(s || '0')` for a decimal-numeral string `s` (the
empty string falls back to `'0'`; non-numeric strings, on which the JS
would throw, are outside the model and read as 0 here). -/
def jsBigIntOrZero (s : String) : ℕ := (parseDec s).getD 0

/-- Left-pad a string to two characters with `'0'`
(`String.padStart(2, '0')`). -/
def padStart2 (s : String) : String :=
  String.mk (List.replicate (2 - s.length) '0') ++ s

/-- Models `fmtUsdt` from `verifyOrderPreconditions` (lines 444-448):
`wei / 10n**18n` and `(wei % 10n**18n) * 100n / 10n**18n`, with the JS
bigint truncating division/remainder pair. -/
def fmtUsdt (wei : ℤ) : String :=
  let whole := Int.tdiv wei (10 ^ 18)
  let frac := Int.tdiv (Int.tmod wei (10 ^ 18) * 100) (10 ^ 18)
  toString whole ++ "." ++ padStart2 (toString frac)

/-- The EIP-712 `Order` message assembled by `signOrder` (lines 513-526)
and passed to `signTypedData`. -/
structure SignedValue where
  salt : ℕ
  maker : String
  signer : String
  taker : String
  tokenId : ℕ
  makerAmount : ℤ
  takerAmount : ℤ
  expiration : ℕ
  nonce : ℕ
  feeRateBps : ℕ
  side : ℕ
  signatureType : ℕ
deriving DecidableEq

/-- Models `SignedOrder` (order.ts lines 29-32): the order fields plus
`signature` and `signedAt`, with the resolved salt and nonce persisted
into `extra` (ProbableAdapter.ts line 538). -/
structure SignedOrder where
  marketId : String
  outcome : String
  price : ℚ
  amount : ℚ
  expiration : ℕ
  makerAddress : String
  extra : OrderExtra
  signature : String
  signedAt : ℕ
deriving DecidableEq

/-- Externally observable interactions of `signOrder`, in program
order. -/
inductive SignEvent where
  | precondCheck
  | nonceResolve
  | signRequest
deriving DecidableEq

/-- Environment for one `signOrder` run: the outcome of every external
interaction.  `precondRead` is `some (balance, allowance)` when both
`eth_call` reads succeed and `none` when they throw (the check is then
skipped, line 464); `salt` is the value of
`Math.round(Math.random() * Date.now())`; `signOk`/`signature` describe
the wallet's response to `signTypedData`; `now` is
`Math.floor(Date.now() / 1000)`. -/
structure SignEnv where
  eoaAddress : String
  precondRead : Option (ℕ × ℕ)
  minNonceReads : List (Option ℕ)
  walletNonceRead : Option ℕ
  salt : ℕ
  signOk : Bool
  signature : String
  now : ℕ

/-- Result of a `signOrder` run: the returned order or thrown error, the
interaction trace, and the EIP-712 message that was (or would have been)
submitted to the wallet. -/
structure SignOutcome where
  result : Except String SignedOrder
  events : List SignEvent
  signedValue : Option SignedValue

/-- The tail of `signOrder` after the precondition check passed (or was
skipped): resolve the contract minimum nonce, raise the local nonce to
it (line 511), assemble the EIP-712 value, request the signature, and
persist the resolved salt/nonce into `extra` (line 538). -/
def signOrderProceed (env : SignEnv) (order : Order) (makerAddress : String) : SignOutcome :=
  let extra := order.extra
  let contractMinNonce := getMinNonce env.minNonceReads env.walletNonceRead
  let nonce := if contractMinNonce > extra.nonce then contractMinNonce else extra.nonce
  let value : SignedValue :=
    { salt := env.salt
      maker := makerAddress
      signer := env.eoaAddress
      taker := extra.taker
      tokenId := jsBigIntOrZero extra.tokenId
      makerAmount := extra.makerAmount
      takerAmount := extra.takerAmount
      expiration := order.expiration
      nonce := nonce
      feeRateBps := extra.feeRateBps
      side := extra.side
      signatureType := extra.signatureType }
  if env.signOk then
    { result := Except.ok
        { marketId := order.marketId
          outcome := order.outcome
          price := order.price
          amount := order.amount
          expiration := order.expiration
          makerAddress := order.makerAddress
          extra := { extra with salt := some env.salt, nonce := nonce }
          signature := env.signature
          signedAt := env.now }
      events := [SignEvent.precondCheck, SignEvent.nonceResolve, SignEvent.signRequest]
      signedValue := some value }
  else
    { result := Except.error "User rejected the request."
      events := [SignEvent.precondCheck, SignEvent.nonceResolve, SignEvent.signRequest]
      signedValue := some value }

/-- Models `verifyOrderPreconditions` (lines 437-488): when both
`eth_call` reads succeed, compare balance and allowance against the
order's `makerAmount` and produce the descriptive error message
(`some msg` models the throw); when the reads fail the check is skipped
(line 464). -/
def verifyOrderPreconditions (precondRead : Option (ℕ × ℕ)) (makerAmount : ℤ) :
    Option String :=
  match precondRead with
  | none => none
  | some (balance, allowance) =>
    if (balance : ℤ) < makerAmount then
      some ("Proxy wallet has insufficient USDT balance. Need " ++
        fmtUsdt makerAmount ++ " USDT, proxy has " ++ fmtUsdt (balance : ℤ) ++
        " USDT. Please deposit more USDT first.")
    else if (allowance : ℤ) < makerAmount then
      some ("Proxy wallet has insufficient USDT allowance for the CTF Exchange. Need " ++
        fmtUsdt makerAmount ++ " USDT approved, only " ++ fmtUsdt (allowance : ℤ) ++
        " USDT approved. Please re-run the approvals setup.")
    else none

/-- Models `ProbableAdapter.signOrder` (lines 490-539): resolve the
maker address (EOA for `signatureType = 0`, the order's maker
otherwise), run `verifyOrderPreconditions` against it — throwing the
descriptive balance/allowance errors before any wallet interaction —
then resolve the nonce and request the signature. -/
def signOrder (env : SignEnv) (order : Order) : SignOutcome :=
  let extra := order.extra
  let makerAddress := if extra.signatureType = 0 then env.eoaAddress else order.makerAddress
  match verifyOrderPreconditions env.precondRead extra.makerAmount with
  | some msg =>
    { result := Except.error msg
      events := [SignEvent.precondCheck]
      signedValue := none }
  | none => signOrderProceed env order makerAddress

theorem ite_gt_eq_max (c n : ℕ) : (if c > n then c else n) = max n c := by
  split <;> omega

/-- On a successful run, `signOrder` reduces to `signOrderProceed` at
the resolved maker address (the precondition check passed or was
skipped). -/
theorem signOrder_ok_eq_proceed (env : SignEnv) (o : Order) (so : SignedOrder)
    (h : (signOrder env o).result = Except.ok so) :
    signOrder env o =
      signOrderProceed env o
        (if o.extra.signatureType = 0 then env.eoaAddress else o.makerAddress) := by
  simp only [signOrder] at h ⊢
  cases hv : verifyOrderPreconditions env.precondRead o.extra.makerAmount with
  | none => rfl
  | some msg =>
    rw [hv] at h
    simp at h

/-- Shape of a successful `signOrderProceed`: the returned order
persists the fresh salt and the raised nonce, and the signed EIP-712
value is assembled from the order fields, the given maker address and
the raised nonce. -/
theorem signOrderProceed_ok_shape (env : SignEnv) (o : Order) (maker : String)
    (so : SignedOrder)
    (h : (signOrderProceed env o maker).result = Except.ok so) :
    so = { marketId := o.marketId
           outcome := o.outcome
           price := o.price
           amount := o.amount
           expiration := o.expiration
           makerAddress := o.makerAddress
           extra := { o.extra with
                      salt := some env.salt
                      nonce := max o.extra.nonce (getMinNonce env.minNonceReads env.walletNonceRead) }
           signature := env.signature
           signedAt := env.now } ∧
    (signOrderProceed env o maker).signedValue = some
      { salt := env.salt
        maker := maker
        signer := env.eoaAddress
        taker := o.extra.taker
        tokenId := jsBigIntOrZero o.extra.tokenId
        makerAmount := o.extra.makerAmount
        takerAmount := o.extra.takerAmount
        expiration := o.expiration
        nonce := max o.extra.nonce (getMinNonce env.minNonceReads env.walletNonceRead)
        feeRateBps := o.extra.feeRateBps
        side := o.extra.side
        signatureType := o.extra.signatureType } := by
  unfold signOrderProceed at h ⊢
  cases hs : env.signOk
  · rw [hs] at h
    simp at h
  · rw [hs] at h
    simp only [ite_true, Bool.true_eq_false] at h ⊢
    simp only [Except.ok.injEq] at h
    subst h
    simp [ite_gt_eq_max]

/-- C4.  The nonce placed into the signed order is the maximum of the
locally proposed nonce (`extra.nonce`) and the resolved on-chain
minimum; the local nonce is never lowered; and when every redundant
endpoint read and the wallet fallback all fail, the resolved minimum
nonce is zero. -/
theorem signOrder_nonce_resolution (env : SignEnv) (o : Order) (so : SignedOrder)
    (h : (signOrder env o).result = Except.ok so) :
    so.extra.nonce = max o.extra.nonce (getMinNonce env.minNonceReads env.walletNonceRead) ∧
    o.extra.nonce ≤ so.extra.nonce ∧
    ∀ k : ℕ, getMinNonce (List.replicate k none) none = 0 := by
  have heq := signOrder_ok_eq_proceed env o so h
  rw [heq] at h
  obtain ⟨hso, -⟩ := signOrderProceed_ok_shape env o _ so h
  subst hso
  refine ⟨rfl, Nat.le_max_left _ _, ?_⟩
  intro k
  induction k with
  | zero => rfl
  | succ n ih => simpa [getMinNonce, List.replicate] using ih

/-- Environment of a successful signing run: ample balance and
allowance, all four nonce endpoints failing and the wallet fallback
failing too. -/
def signEnvW : SignEnv :=
  { eoaAddress := "0xeoa"
    precondRead := some (100000000000000000000, 100000000000000000000)
    minNonceReads := [none, none, none, none]
    walletNonceRead := none
    salt := 7
    signOk := true
    signature := "0xsig"
    now := 1700000001 }

/-- A built order carrying an injected token id and API credentials. -/
def signOrderInputW : Order :=
  { marketId := "mkt"
    outcome := "Yes"
    price := 21 / 50
    amount := 50
    expiration := 1700000000
    makerAddress := "0xmaker"
    extra :=
      { side := 0
        makerAmount := 49996800000000000000
        takerAmount := 119040000000000000000
        feeRateBps := 175
        nonce := 0
        signatureType := 0
        taker := zeroAddress
        tokenId := "598"
        apiKey := some "key"
        apiSecret := some "secret"
        apiPassphrase := some "pass" } }

/-- The signed order returned for `signEnvW` / `signOrderInputW`. -/
def signedOrderW : SignedOrder :=
  { marketId := "mkt"
    outcome := "Yes"
    price := 21 / 50
    amount := 50
    expiration := 1700000000
    makerAddress := "0xmaker"
    extra :=
      { side := 0
        makerAmount := 49996800000000000000
        takerAmount := 119040000000000000000
        feeRateBps := 175
        nonce := 0
        signatureType := 0
        taker := zeroAddress
        tokenId := "598"
        salt := some 7
        apiKey := some "key"
        apiSecret := some "secret"
        apiPassphrase := some "pass" }
    signature := "0xsig"
    signedAt := 1700000001 }

theorem signOrder_nonce_resolution_witness :
    (signOrder signEnvW signOrderInputW).result = Except.ok signedOrderW ∧
    (signedOrderW.extra.nonce =
        max signOrderInputW.extra.nonce
          (getMinNonce signEnvW.minNonceReads signEnvW.walletNonceRead) ∧
      signOrderInputW.extra.nonce ≤ signedOrderW.extra.nonce ∧
      ∀ k : ℕ, getMinNonce (List.replicate k none) none = 0) :=
  have h : (signOrder signEnvW signOrderInputW).result = Except.ok signedOrderW := by
    simp [signOrder, signOrderProceed, verifyOrderPreconditions, getMinNonce,
      signEnvW, signOrderInputW, signedOrderW]
  ⟨h, signOrder_nonce_resolution signEnvW signOrderInputW signedOrderW h⟩

/-- C5.  `signOrder` runs the balance/allowance check before any wallet
interaction: whenever the read balance or allowance is below the order's
`makerAmount`, it throws the descriptive error naming the exact required
and available amounts, and no signature request is ever issued. -/
theorem signOrder_precondition_failfast (env : SignEnv) (o : Order)
    (balance allowance : ℕ)
    (hread : env.precondRead = some (balance, allowance))
    (hlack : (balance : ℤ) < o.extra.makerAmount ∨ (allowance : ℤ) < o.extra.makerAmount) :
    (signOrder env o).events.count SignEvent.signRequest = 0 ∧
    (signOrder env o).result = Except.error
      (if (balance : ℤ) < o.extra.makerAmount then
        "Proxy wallet has insufficient USDT balance. Need " ++ fmtUsdt o.extra.makerAmount ++
          " USDT, proxy has " ++ fmtUsdt (balance : ℤ) ++ " USDT. Please deposit more USDT first."
      else
        "Proxy wallet has insufficient USDT allowance for the CTF Exchange. Need " ++
          fmtUsdt o.extra.makerAmount ++ " USDT approved, only " ++ fmtUsdt (allowance : ℤ) ++
          " USDT approved. Please re-run the approvals setup.") := by
  by_cases hb : (balance : ℤ) < o.extra.makerAmount
  · simp only [signOrder, verifyOrderPreconditions, hread, if_pos hb]
    and_intros <;> trivial
  · have ha : (allowance : ℤ) < o.extra.makerAmount := hlack.resolve_left hb
    simp only [signOrder, verifyOrderPreconditions, hread, if_neg hb, if_pos ha]
    and_intros <;> trivial

/-- Environment whose balance read (10 wei) is far below the order's
makerAmount. -/
def signEnvPoorW : SignEnv :=
  { eoaAddress := "0xeoa"
    precondRead := some (10, 100000000000000000000)
    minNonceReads := [none, none, none, none]
    walletNonceRead := none
    salt := 7
    signOk := true
    signature := "0xsig"
    now := 1700000001 }

theorem signOrder_precondition_failfast_witness :
    signEnvPoorW.precondRead = some (10, 100000000000000000000) ∧
    (((10 : ℕ) : ℤ) < signOrderInputW.extra.makerAmount ∨
      ((100000000000000000000 : ℕ) : ℤ) < signOrderInputW.extra.makerAmount) ∧
    ((signOrder signEnvPoorW signOrderInputW).events.count SignEvent.signRequest = 0 ∧
      (signOrder signEnvPoorW signOrderInputW).result = Except.error
        (if ((10 : ℕ) : ℤ) < signOrderInputW.extra.makerAmount then
          "Proxy wallet has insufficient USDT balance. Need " ++
            fmtUsdt signOrderInputW.extra.makerAmount ++ " USDT, proxy has " ++
            fmtUsdt ((10 : ℕ) : ℤ) ++ " USDT. Please deposit more USDT first."
        else
          "Proxy wallet has insufficient USDT allowance for the CTF Exchange. Need " ++
            fmtUsdt signOrderInputW.extra.makerAmount ++ " USDT approved, only " ++
            fmtUsdt ((100000000000000000000 : ℕ) : ℤ) ++
            " USDT approved. Please re-run the approvals setup.")) :=
  have h1 : signEnvPoorW.precondRead = some (10, 100000000000000000000) := rfl
  have h2 : ((10 : ℕ) : ℤ) < signOrderInputW.extra.makerAmount ∨
      ((100000000000000000000 : ℕ) : ℤ) < signOrderInputW.extra.makerAmount :=
    Or.inl (by norm_num [signOrderInputW])
  ⟨h1, h2, signOrder_precondition_failfast signEnvPoorW signOrderInputW 10
    100000000000000000000 h1 h2⟩

/-! ### Order submission (ProbableAdapter.submitOrder, lines 656-736) -/

/-- Models JS falsiness of an optional credential string
(`!extra.apiKey`): absent or empty. -/
def jsFalsy : Option String → Bool
  | none => true
  | some s => s == ""

/-- The `order` object of the submission body (lines 682-696) together
with the surrounding `owner` and `orderType` fields.  All numeric fields
are serialized as decimal strings, exactly as the source does. -/
structure SubmitBody where
  salt : String
  maker : String
  signer : String
  taker : String
  tokenId : String
  makerAmount : String
  takerAmount : String
  side : String
  expiration : String
  nonce : String
  feeRateBps : String
  signatureType : ℕ
  signature : String
  owner : String
  orderType : String
deriving DecidableEq

/-- Models `ProbableAdapter.submitOrder` (lines 656-736) up to the HTTP
POST: missing/empty API credentials short-circuit into a failure
response; otherwise the submission body is assembled from the signed
order's `extra`.  The `??` fallbacks of the source: `extra.salt` is
absent only for orders not produced by `signOrder` (`freshSalt` models
the fresh `Math.round(Math.random() * Date.now())`); `extra.taker` and
`extra.tokenId` are always-present strings here, and the empty-string
token id stays empty (`'' ?? '0'` is `''` — `??` only replaces
null/undefined). -/
def submitOrder (eoaAddress : String) (freshSalt : ℕ) (so : SignedOrder) :
    Except String SubmitBody :=
  let extra := so.extra
  if jsFalsy extra.apiKey || jsFalsy extra.apiSecret || jsFalsy extra.apiPassphrase then
    Except.error "API credentials missing. Please authenticate before placing an order."
  else
    let makerAddress :=
      if extra.signatureType = 0 then eoaAddress
      else extra.proxyAddress.getD so.makerAddress
    Except.ok
      { salt := toString (extra.salt.getD freshSalt)
        maker := makerAddress
        signer := eoaAddress
        taker := extra.taker
        tokenId := extra.tokenId
        makerAmount := toString extra.makerAmount
        takerAmount := toString extra.takerAmount
        side := if extra.side = 0 then "BUY" else "SELL"
        expiration := toString so.expiration
        nonce := toString extra.nonce
        feeRateBps := toString extra.feeRateBps
        signatureType := extra.signatureType
        signature := so.signature
        owner := eoaAddress
        orderType := "GTC" }

/-- C9.  Round-trip: for a `SignedOrder` produced by `signOrder` (i.e.
with no externally injected `proxyAddress`) and submitted through the
same wallet address, every order field of the submission body agrees
with the EIP-712 value that was signed — salt, maker, signer, taker,
tokenId, makerAmount, takerAmount, expiration, nonce, feeRateBps,
signatureType, and signature — with the single declared reshaping that
the numeric side code becomes the string label (`"BUY"` for 0, `"SELL"`
for 1). -/
theorem signOrder_submitOrder_roundtrip (env : SignEnv) (o : Order) (so : SignedOrder)
    (sv : SignedValue) (freshSalt : ℕ) (body : SubmitBody)
    (hres : (signOrder env o).result = Except.ok so)
    (hsv : (signOrder env o).signedValue = some sv)
    (hproxy : o.extra.proxyAddress = none)
    (hsub : submitOrder env.eoaAddress freshSalt so = Except.ok body) :
    body.salt = toString sv.salt ∧
    body.maker = sv.maker ∧
    body.signer = sv.signer ∧
    body.taker = sv.taker ∧
    jsBigIntOrZero body.tokenId = sv.tokenId ∧
    body.makerAmount = toString sv.makerAmount ∧
    body.takerAmount = toString sv.takerAmount ∧
    body.expiration = toString sv.expiration ∧
    body.nonce = toString sv.nonce ∧
    body.feeRateBps = toString sv.feeRateBps ∧
    body.signatureType = sv.signatureType ∧
    body.signature = so.signature ∧
    body.side = (if sv.side = 0 then "BUY" else "SELL") := by
  have heq := signOrder_ok_eq_proceed env o so hres
  rw [heq] at hres hsv
  obtain ⟨hso, hval⟩ := signOrderProceed_ok_shape env o _ so hres
  rw [hval, Option.some.injEq] at hsv
  subst hsv
  subst hso
  simp only [submitOrder] at hsub
  split at hsub
  · exact absurd hsub (by simp)
  · simp only [Except.ok.injEq] at hsub
    subst hsub
    simp only [hproxy, Option.getD]
    and_intros <;> trivial

/-- The EIP-712 value signed for `signEnvW` / `signOrderInputW`. -/
def signedValueW : SignedValue :=
  { salt := 7
    maker := "0xeoa"
    signer := "0xeoa"
    taker := zeroAddress
    tokenId := 598
    makerAmount := 49996800000000000000
    takerAmount := 119040000000000000000
    expiration := 1700000000
    nonce := 0
    feeRateBps := 175
    side := 0
    signatureType := 0 }

/-- The submission body built from `signedOrderW`. -/
def submitBodyW : SubmitBody :=
  { salt := "7"
    maker := "0xeoa"
    signer := "0xeoa"
    taker := zeroAddress
    tokenId := "598"
    makerAmount := "49996800000000000000"
    takerAmount := "119040000000000000000"
    side := "BUY"
    expiration := "1700000000"
    nonce := "0"
    feeRateBps := "175"
    signatureType := 0
    signature := "0xsig"
    owner := "0xeoa"
    orderType := "GTC" }

theorem signOrderW_result_eval :
    (signOrder signEnvW signOrderInputW).result = Except.ok signedOrderW := by
  simp [signOrder, signOrderProceed, verifyOrderPreconditions, getMinNonce,
    signEnvW, signOrderInputW, signedOrderW]

theorem signOrderW_signedValue_eval :
    (signOrder signEnvW signOrderInputW).signedValue = some signedValueW := rfl

theorem submitOrderW_eval :
    submitOrder signEnvW.eoaAddress 99 signedOrderW = Except.ok submitBodyW := rfl

theorem signOrder_submitOrder_roundtrip_witness :
    (signOrder signEnvW signOrderInputW).result = Except.ok signedOrderW ∧
    (signOrder signEnvW signOrderInputW).signedValue = some signedValueW ∧
    signOrderInputW.extra.proxyAddress = none ∧
    submitOrder signEnvW.eoaAddress 99 signedOrderW = Except.ok submitBodyW ∧
    (submitBodyW.salt = toString signedValueW.salt ∧
      submitBodyW.maker = signedValueW.maker ∧
      submitBodyW.signer = signedValueW.signer ∧
      submitBodyW.taker = signedValueW.taker ∧
      jsBigIntOrZero submitBodyW.tokenId = signedValueW.tokenId ∧
      submitBodyW.makerAmount = toString signedValueW.makerAmount ∧
      submitBodyW.takerAmount = toString signedValueW.takerAmount ∧
      submitBodyW.expiration = toString signedValueW.expiration ∧
      submitBodyW.nonce = toString signedValueW.nonce ∧
      submitBodyW.feeRateBps = toString signedValueW.feeRateBps ∧
      submitBodyW.signatureType = signedValueW.signatureType ∧
      submitBodyW.signature = signedOrderW.signature ∧
      submitBodyW.side = (if signedValueW.side = 0 then "BUY" else "SELL")) :=
  ⟨signOrderW_result_eval, signOrderW_signedValue_eval, rfl, submitOrderW_eval,
    signOrder_submitOrder_roundtrip signEnvW signOrderInputW signedOrderW signedValueW 99
      submitBodyW signOrderW_result_eval signOrderW_signedValue_eval rfl submitOrderW_eval⟩

/-! ### Proxy wallet creation (src/unnamed/part_011, lines 723-803) -/

/-- On-chain state relevant to the proxy wallet: whether the Safe proxy
for the owner is deployed, and the factory's deterministic
`computeProxyAddress` mapping (a read-only view function of the owner,
unchanged by deployment). -/
structure ChainState where
  deployed : Bool
  addrOf : String → String

/-- Outcomes of the external interactions of one `createProxyWallet`
run: `readOk` — at least one of the two `eth_getCode` paths (MetaMask,
then direct BSC RPC) succeeds; `signOk` — the user approves the
`CreateProxy` EIP-712 signature; `txConfirmed` — the deployment
transaction confirms with receipt status `0x1` inside the polling
window. -/
structure ProxyEnv where
  readOk : Bool
  signOk : Bool
  txConfirmed : Bool

/-- Models `computeProxyAddress` (lines 729-733): one read-only factory
call, a pure function of the owner address. -/
def computeProxyAddress (st : ChainState) (eoa : String) : String := st.addrOf eoa

/-- Models `proxyWalletExists` (lines 739-747): deployed-code presence,
`none` when both read paths throw (the exception propagates). -/
def proxyWalletExists (st : ChainState) (env : ProxyEnv) : Option Bool :=
  if env.readOk then some st.deployed else none

/-- Result of a `createProxyWallet` run: the returned address (`none`
models a throw), the number of wallet signature prompts, the number of
transactions submitted, and the chain state afterwards. -/
structure ProxyCreateOutcome where
  result : Option String
  sigRequests : ℕ
  txCount : ℕ
  post : ChainState

/-- Models `createProxyWallet` (lines 759-803): compute the
deterministic address; if the proxy already exists return it at once
(no signature, no transaction); otherwise request one `CreateProxy`
typed-data signature and submit one factory transaction, and poll for
its receipt.  A confirmed `createProxy` transaction deploys the Safe at
the computed address — that on-chain effect of the factory is the one
part modelled from chain semantics rather than this module's code. -/
def createProxyWallet (st : ChainState) (env : ProxyEnv) (eoa : String) :
    ProxyCreateOutcome :=
  let proxyAddress := computeProxyAddress st eoa
  match proxyWalletExists st env with
  | none => { result := none, sigRequests := 0, txCount := 0, post := st }
  | some true => { result := some proxyAddress, sigRequests := 0, txCount := 0, post := st }
  | some false =>
    if env.signOk then
      if env.txConfirmed then
        { result := some proxyAddress, sigRequests := 1, txCount := 1,
          post := { st with deployed := true } }
      else
        { result := none, sigRequests := 1, txCount := 1, post := st }
    else
      { result := none, sigRequests := 1, txCount := 0, post := st }

/-- C6.  `createProxyWallet` is idempotent on an already-deployed
address: when the proxy exists it returns the deterministically computed
address with zero signature requests and zero transactions; when it does
not, it requests exactly one authorization signature and submits exactly
one deployment transaction, after which `proxyWalletExists` returns
`true`; and the computed address is unchanged by deployment. -/
theorem createProxyWallet_idempotent (st : ChainState) (env : ProxyEnv) (eoa : String)
    (hread : env.readOk = true) (hsign : env.signOk = true) (htx : env.txConfirmed = true) :
    (createProxyWallet st env eoa).result = some (computeProxyAddress st eoa) ∧
    (createProxyWallet st env eoa).sigRequests = (if st.deployed then 0 else 1) ∧
    (createProxyWallet st env eoa).txCount = (if st.deployed then 0 else 1) ∧
    proxyWalletExists (createProxyWallet st env eoa).post env = some true ∧
    computeProxyAddress (createProxyWallet st env eoa).post eoa =
      computeProxyAddress st eoa := by
  cases hd : st.deployed <;>
    simp [createProxyWallet, proxyWalletExists, computeProxyAddress, hread, hsign, htx, hd]

/-- A not-yet-deployed chain state with a concrete factory mapping. -/
def chainStateW : ChainState :=
  { deployed := false, addrOf := fun eoa => "proxyOf " ++ eoa }

/-- All external interactions succeed. -/
def proxyEnvW : ProxyEnv := { readOk := true, signOk := true, txConfirmed := true }

theorem createProxyWallet_idempotent_witness :
    proxyEnvW.readOk = true ∧ proxyEnvW.signOk = true ∧ proxyEnvW.txConfirmed = true ∧
    ((createProxyWallet chainStateW proxyEnvW "0xeoa").result =
        some (computeProxyAddress chainStateW "0xeoa") ∧
      (createProxyWallet chainStateW proxyEnvW "0xeoa").sigRequests =
        (if chainStateW.deployed then 0 else 1) ∧
      (createProxyWallet chainStateW proxyEnvW "0xeoa").txCount =
        (if chainStateW.deployed then 0 else 1) ∧
      proxyWalletExists (createProxyWallet chainStateW proxyEnvW "0xeoa").post proxyEnvW =
        some true ∧
      computeProxyAddress (createProxyWallet chainStateW proxyEnvW "0xeoa").post "0xeoa" =
        computeProxyAddress chainStateW "0xeoa") :=
  ⟨rfl, rfl, rfl, createProxyWallet_idempotent chainStateW proxyEnvW "0xeoa" rfl rfl rfl⟩

/-! ### Token approvals (src/src/wallet/approvals.ts) -/

/-- BSC-Peg USDT (approvals.ts line 27). -/
def USDT_ADDRESS : String := "0x55d398326f99059fF775485246999027B3197955"

/-- CTF Token, ERC-1155 (line 28). -/
def CTF_TOKEN_ADDRESS : String := "0x364d05055614B506e2b9A287E4ac34167204cA83"

/-- CTF Exchange (line 29). -/
def CTF_EXCHANGE_ADDRESS : String := "0xF99F5367ce708c66F0860B77B4331301A5597c86"

/-- MaxUint256 as 64-char hex (line 35). -/
def MAX_UINT256_HEX : String :=
  "ffffffffffffffffffffffffffffffffffffffffffffffffffffffffffffffff"

/-- Models `padAddr` (lines 40-42): strip `0x`, lowercase, left-pad to a
64-char ABI word. -/
def padAddr (address : String) : String :=
  let s := (address.drop 2).toLower
  String.mk (List.replicate (64 - s.length) '0') ++ s

/-- Models `encodeApproveData` (lines 55-57):
`approve(spender, MaxUint256)` calldata. -/
def encodeApproveData (spender : String) : String :=
  "0x095ea7b3" ++ padAddr spender ++ MAX_UINT256_HEX

/-- Models `encodeSetApprovalForAllData` (lines 60-64):
`setApprovalForAll(operator, true)` calldata. -/
def encodeSetApprovalForAllData (operator : String) : String :=
  "0xa22cb465" ++ padAddr operator ++
    "0000000000000000000000000000000000000000000000000000000000000001"

/-- Models `ApprovalStatus` (lines 81-87), used by `grantApprovals`. -/
structure ApprovalStatus where
  needsUSDTForCTF : Bool
  needsUSDTForExchange : Bool
  needsCTFForExchange : Bool
  allApproved : Bool
deriving DecidableEq

/-- Models `EoaApprovalStatus` (lines 253-258), used by
`grantEoaApproval`. -/
structure EoaApprovalStatus where
  needsUSDTForCTFToken : Bool
  needsUSDTForExchange : Bool
  needsCTFForExchange : Bool
  allApproved : Bool
deriving DecidableEq

/-- Observable events of a grant run: a progress message delivered to
`onProgress`, or a submitted transaction (a Safe `execTransaction` relay
for `grantApprovals`, a direct `eth_sendTransaction` for
`grantEoaApproval`). -/
inductive GrantEvent where
  | progress (msg : String)
  | tx (target : String) (data : String)
deriving DecidableEq

/-- Models `grantApprovals` (lines 132-167): one block per missing
approval, each emitting its hardcoded `Step i/3` label before and after
a Safe-relayed transaction.  The confirmation-progress messages relayed
out of `executeFromProxy` (each prefixed with the same hardcoded label)
are abstracted into the single transaction event. -/
def grantApprovalsTrace (status : ApprovalStatus) : List GrantEvent :=
  (if status.needsUSDTForCTF then
    [GrantEvent.progress "Step 1/3 — Approve USDT for CTF Token contract…",
     GrantEvent.tx USDT_ADDRESS (encodeApproveData CTF_TOKEN_ADDRESS),
     GrantEvent.progress "Step 1/3 — Done ✓"]
   else []) ++
  (if status.needsUSDTForExchange then
    [GrantEvent.progress "Step 2/3 — Approve USDT for CTF Exchange…",
     GrantEvent.tx USDT_ADDRESS (encodeApproveData CTF_EXCHANGE_ADDRESS),
     GrantEvent.progress "Step 2/3 — Done ✓"]
   else []) ++
  (if status.needsCTFForExchange then
    [GrantEvent.progress "Step 3/3 — Approve CTF Tokens for Exchange…",
     GrantEvent.tx CTF_TOKEN_ADDRESS (encodeSetApprovalForAllData CTF_EXCHANGE_ADDRESS),
     GrantEvent.progress "Step 3/3 — Done ✓"]
   else [])

/-- Models `grantEoaApproval` (lines 352-388): if all approvals are in
place it emits one informational message and stops; otherwise one
`sendTxAndWait` per missing approval, whose label carries the numerator
`2` or `1` for the second step depending on whether the first was
missing, and hardcoded `(1/3)` / `(3/3)` for the first and third.  The
per-poll `label: confirming… Ns` messages of `sendTxAndWait` are
abstracted into the transaction event. -/
def grantEoaApprovalTrace (status : EoaApprovalStatus) : List GrantEvent :=
  if status.allApproved then
    [GrantEvent.progress "All approvals already in place."]
  else
    (if status.needsUSDTForCTFToken then
      [GrantEvent.progress "Approving USDT for CTF Token (1/3) — confirm in MetaMask…",
       GrantEvent.tx USDT_ADDRESS (encodeApproveData CTF_TOKEN_ADDRESS)]
     else []) ++
    (if status.needsUSDTForExchange then
      [GrantEvent.progress ("Approving USDT for Exchange (" ++
         (if status.needsUSDTForCTFToken then "2" else "1") ++ "/3) — confirm in MetaMask…"),
       GrantEvent.tx USDT_ADDRESS (encodeApproveData CTF_EXCHANGE_ADDRESS)]
     else []) ++
    (if status.needsCTFForExchange then
      [GrantEvent.progress "Approving CTF Tokens for Exchange (3/3) — confirm in MetaMask…",
       GrantEvent.tx CTF_TOKEN_ADDRESS (encodeSetApprovalForAllData CTF_EXCHANGE_ADDRESS)]
     else [])

/-- Number of missing approvals in an `ApprovalStatus`. -/
def missingCount (st : ApprovalStatus) : ℕ :=
  (if st.needsUSDTForCTF then 1 else 0) + (if st.needsUSDTForExchange then 1 else 0) +
    (if st.needsCTFForExchange then 1 else 0)

/-- Number of transactions in a grant trace. -/
def grantTxCount (events : List GrantEvent) : ℕ :=
  events.countP fun e =>
    match e with
    | GrantEvent.tx _ _ => true
    | GrantEvent.progress _ => false

/-- Boolean list-prefix test on characters. -/
def charListTakes : List Char → List Char → Bool
  | [], _ => true
  | _ :: _, [] => false
  | p :: ps, c :: cs => p == c && charListTakes ps cs

/-- Boolean substring-occurrence test on characters. -/
def charListHasSub (pat : List Char) : List Char → Bool
  | [] => pat.isEmpty
  | c :: cs => charListTakes pat (c :: cs) || charListHasSub pat cs

/-- Boolean substring test on strings. -/
def strContains (pat s : String) : Bool := charListHasSub pat.data s.data

/-- The status with only the CTF-token approval missing. -/
def onlyCtfMissing : ApprovalStatus :=
  { needsUSDTForCTF := false, needsUSDTForExchange := false,
    needsCTFForExchange := true, allApproved := false }

/-- C7 counterexample.  With exactly one approval remaining,
`grantApprovals` labels it `Step 3/3` — its fixed position against the
hardcoded total 3, not `1/1` relative to what remains — and
`grantEoaApproval` with everything already granted still emits one
progress message rather than zero. -/
theorem grantApprovals_labels_counterexample :
    missingCount onlyCtfMissing = 1 ∧
    grantApprovalsTrace onlyCtfMissing =
      [GrantEvent.progress "Step 3/3 — Approve CTF Tokens for Exchange…",
       GrantEvent.tx CTF_TOKEN_ADDRESS (encodeSetApprovalForAllData CTF_EXCHANGE_ADDRESS),
       GrantEvent.progress "Step 3/3 — Done ✓"] ∧
    strContains "3/3" "Step 3/3 — Approve CTF Tokens for Exchange…" = true ∧
    strContains "1/1" "Step 3/3 — Approve CTF Tokens for Exchange…" = false ∧
    grantEoaApprovalTrace
        { needsUSDTForCTFToken := false, needsUSDTForExchange := false,
          needsCTFForExchange := false, allApproved := true } =
      [GrantEvent.progress "All approvals already in place."] :=
  ⟨rfl, rfl, by decide, by decide, rfl⟩

/-- C7 (amended).  `grantApprovals` emits zero transactions and zero
progress messages exactly when all three needs-approval flags are false,
and one transaction per missing approval; its step labels are fixed per
approval against the hardcoded total 3 (the CTF step is always
`Step 3/3` however many remain).  `grantEoaApproval` with everything
granted emits one informational message and no transactions; otherwise
one transaction per missing approval, with only the second step's
numerator adjusted relative to the first. -/
theorem grantApprovals_step_labels (st : ApprovalStatus) (est : EoaApprovalStatus) :
    (grantApprovalsTrace st = [] ↔
      st.needsUSDTForCTF = false ∧ st.needsUSDTForExchange = false ∧
        st.needsCTFForExchange = false) ∧
    grantTxCount (grantApprovalsTrace st) = missingCount st ∧
    (grantApprovalsTrace st).count
        (GrantEvent.progress "Step 3/3 — Approve CTF Tokens for Exchange…") =
      (if st.needsCTFForExchange then 1 else 0) ∧
    (grantEoaApprovalTrace est).count
        (GrantEvent.progress "All approvals already in place.") =
      (if est.allApproved then 1 else 0) ∧
    grantTxCount (grantEoaApprovalTrace est) =
      (if est.allApproved then 0 else
        (if est.needsUSDTForCTFToken then 1 else 0) +
          (if est.needsUSDTForExchange then 1 else 0) +
          (if est.needsCTFForExchange then 1 else 0)) := by
  obtain ⟨a, b, c, d⟩ := st
  obtain ⟨e, f, g, h2⟩ := est
  cases a <;> cases b <;> cases c <;> cases d <;> cases e <;> cases f <;> cases g <;>
    cases h2 <;> decide

/-! ### L2 HMAC request signature (ProbableAdapter.buildL2Signature,
lines 613-643)

The Web Crypto primitive `crypto.subtle.sign('HMAC', …)` with SHA-256 is
modelled by a reference implementation over byte lists (unbounded `ℕ`
per byte, reduced mod 2^32 at each word operation); `atob`/`btoa` by
reference base64 routines. -/

/-- Truncate to a 32-bit word. -/
def w32 (n : ℕ) : ℕ := n % 4294967296

/-- Rotate a 32-bit word right by `n`. -/
def shaRotr (x n : ℕ) : ℕ := w32 (x / 2 ^ n + x % 2 ^ n * 2 ^ (32 - n))

/-- Logical right shift. -/
def shaShr (x n : ℕ) : ℕ := x / 2 ^ n

/-- Bitwise complement within 32 bits. -/
def shaNot (x : ℕ) : ℕ := 4294967295 - x

def shaCh (e f g : ℕ) : ℕ := (e &&& f) ^^^ (shaNot e &&& g)

def shaMaj (a b c : ℕ) : ℕ := (a &&& b) ^^^ (a &&& c) ^^^ (b &&& c)

def shaS0 (a : ℕ) : ℕ := shaRotr a 2 ^^^ shaRotr a 13 ^^^ shaRotr a 22

def shaS1 (e : ℕ) : ℕ := shaRotr e 6 ^^^ shaRotr e 11 ^^^ shaRotr e 25

def shaG0 (x : ℕ) : ℕ := shaRotr x 7 ^^^ shaRotr x 18 ^^^ shaShr x 3

def shaG1 (x : ℕ) : ℕ := shaRotr x 17 ^^^ shaRotr x 19 ^^^ shaShr x 10

/-- The SHA-256 round constants. -/
def shaK : List ℕ :=
  [1116352408, 1899447441, 3049323471, 3921009573, 961987163,
   1508970993, 2453635748, 2870763221, 3624381080, 310598401,
   607225278, 1426881987, 1925078388, 2162078206, 2614888103,
   3248222580, 3835390401, 4022224774, 264347078, 604807628,
   770255983, 1249150122, 1555081692, 1996064986, 2554220882,
   2821834349, 2952996808, 3210313671, 3336571891, 3584528711,
   113926993, 338241895, 666307205, 773529912, 1294757372,
   1396182291, 1695183700, 1986661051, 2177026350, 2456956037,
   2730485921, 2820302411, 3259730800, 3345764771, 3516065817,
   3600352804, 4094571909, 275423344, 430227734, 506948616,
   659060556, 883997877, 958139571, 1322822218, 1537002063,
   1747873779, 1955562222, 2024104815, 2227730452, 2361852424,
   2428436474, 2756734187, 3204031479, 3329325298]

/-- The SHA-256 initial hash value. -/
def shaH0 : List ℕ :=
  [1779033703, 3144134277, 1013904242, 2773480762,
   1359893119, 2600822924, 528734635, 1541459225]

/-- Big-endian byte expansion: `beBytes k n` is the `k` low-order bytes
of `n`, most significant first. -/
def beBytes : ℕ → ℕ → List ℕ
  | 0, _ => []
  | k + 1, n => beBytes k (n / 256) ++ [n % 256]

/-- Pack bytes into big-endian 32-bit words (groups of four). -/
def bytesToWords : List ℕ → List ℕ
  | b1 :: b2 :: b3 :: b4 :: rest =>
    (((b1 * 256 + b2) * 256 + b3) * 256 + b4) :: bytesToWords rest
  | _ => []

/-- SHA-256 message padding: `0x80`, zeros to 56 mod 64, then the
64-bit big-endian bit length. -/
def sha256Pad (msg : List ℕ) : List ℕ :=
  let L := msg.length
  let zeros := (120 - (L + 1) % 64) % 64
  msg ++ [128] ++ List.replicate zeros 0 ++ beBytes 8 (8 * L)

/-- Split into 64-byte blocks. -/
def chunks64 (l : List ℕ) : List (List ℕ) :=
  if h : l = [] then []
  else l.take 64 :: chunks64 (l.drop 64)
termination_by l.length
decreasing_by
  have : l.length ≠ 0 := by simpa [List.length_eq_zero] using h
  simp [List.length_drop]
  omega

/-- One SHA-256 compression round over the eight-word state. -/
def shaRound (ws : Array ℕ) (st : List ℕ) (t : ℕ) : List ℕ :=
  let a := st.getD 0 0
  let b := st.getD 1 0
  let c := st.getD 2 0
  let d := st.getD 3 0
  let e := st.getD 4 0
  let f := st.getD 5 0
  let g := st.getD 6 0
  let hh := st.getD 7 0
  let T1 := w32 (hh + shaS1 e + shaCh e f g + shaK.getD t 0 + ws.getD t 0)
  let T2 := w32 (shaS0 a + shaMaj a b c)
  [w32 (T1 + T2), a, b, c, w32 (d + T1), e, f, g]

/-- SHA-256 compression of one 64-byte block into the running hash. -/
def shaCompress (hs : List ℕ) (block : List ℕ) : List ℕ :=
  let ws := (List.range 48).foldl
    (fun (w : Array ℕ) i =>
      let t := i + 16
      w.push (w32 (shaG1 (w.getD (t - 2) 0) + w.getD (t - 7) 0 +
        shaG0 (w.getD (t - 15) 0) + w.getD (t - 16) 0)))
    (bytesToWords block).toArray
  let final := (List.range 64).foldl (shaRound ws) hs
  List.zipWith (fun x y => w32 (x + y)) hs final

/-- Reference SHA-256 over a byte list. -/
def sha256 (msg : List ℕ) : List ℕ :=
  let hs := (chunks64 (sha256Pad msg)).foldl shaCompress shaH0
  hs.foldr (fun w acc => beBytes 4 w ++ acc) []

/-- Reference HMAC-SHA256 (the semantics of
`crypto.subtle.importKey('raw', …, HMAC/SHA-256)` + `crypto.subtle.sign`). -/
def hmacSha256 (key msg : List ℕ) : List ℕ :=
  let k0 := if 64 < key.length then sha256 key else key
  let kp := k0 ++ List.replicate (64 - k0.length) 0
  let ipad := kp.map fun b => b ^^^ 54
  let opad := kp.map fun b => b ^^^ 92
  sha256 (opad ++ sha256 (ipad ++ msg))

/-- The standard base64 alphabet (used by `btoa`/`atob`). -/
def stdAlphabet : List Char :=
  "ABCDEFGHIJKLMNOPQRSTUVWXYZabcdefghijklmnopqrstuvwxyz0123456789+/".data

/-- The URL-safe base64 alphabet. -/
def urlAlphabet : List Char :=
  "ABCDEFGHIJKLMNOPQRSTUVWXYZabcdefghijklmnopqrstuvwxyz0123456789-_".data

/-- Base64-encode a byte list with the given alphabet, with `'='`
padding — `b64Chars stdAlphabet` is `btoa` applied to the
`String.fromCharCode` binary string of the bytes (lines 638-642). -/
def b64Chars (alpha : List Char) : List ℕ → List Char
  | [] => []
  | [b1] => [alpha.getD (b1 / 4) 'A', alpha.getD (b1 % 4 * 16) 'A', '=', '=']
  | [b1, b2] =>
    [alpha.getD (b1 / 4) 'A', alpha.getD (b1 % 4 * 16 + b2 / 16) 'A',
     alpha.getD (b2 % 16 * 4) 'A', '=']
  | b1 :: b2 :: b3 :: rest =>
    alpha.getD (b1 / 4) 'A' :: alpha.getD (b1 % 4 * 16 + b2 / 16) 'A' ::
      alpha.getD (b2 % 16 * 4 + b3 / 64) 'A' :: alpha.getD (b3 % 64) 'A' ::
      b64Chars alpha rest

/-- Index of a character in the standard base64 alphabet. -/
def b64Val (c : Char) : Option ℕ :=
  let i := stdAlphabet.indexOf c
  if i < 64 then some i else none

/-- Base64-decode by four-character groups, final-group padding only;
`none` models the `atob` exception on malformed input. -/
def atobQuads : List Char → Option (List ℕ)
  | [] => some []
  | [c1, c2, '=', '='] =>
    match b64Val c1, b64Val c2 with
    | some v1, some v2 => some [v1 * 4 + v2 / 16]
    | _, _ => none
  | [c1, c2, c3, '='] =>
    match b64Val c1, b64Val c2, b64Val c3 with
    | some v1, some v2, some v3 => some [v1 * 4 + v2 / 16, v2 % 16 * 16 + v3 / 4]
    | _, _, _ => none
  | c1 :: c2 :: c3 :: c4 :: rest =>
    match b64Val c1, b64Val c2, b64Val c3, b64Val c4, atobQuads rest with
    | some v1, some v2, some v3, some v4, some bs =>
      some ((v1 * 4 + v2 / 16) :: (v2 % 16 * 16 + v3 / 4) :: (v3 % 4 * 64 + v4) :: bs)
    | _, _, _, _, _ => none
  | _ => none

/-- Models `atob` into raw bytes. -/
def atobBytes (s : String) : Option (List ℕ) := atobQuads s.data

/-- Models a global single-character regex replace
(`s.replace(/x/g, 'y')`). -/
def jsReplaceChar (s : String) (a b : Char) : String :=
  String.mk (s.data.map fun c => if c = a then b else c)

/-- Models `new TextEncoder().encode(s)`: UTF-8 bytes. -/
def utf8Bytes (s : String) : List ℕ := s.toUTF8.toList.map UInt8.toNat

/-- Models `ProbableAdapter.buildL2Signature` (lines 613-643): the
message is `${timestamp}${method}${path}${body}`; the secret is
normalized from URL-safe to standard base64 and `atob`-decoded into the
HMAC key; the HMAC-SHA256 output bytes go through the
`String.fromCharCode` loop, `btoa`, and the two global replaces that
make the result URL-safe. -/
def buildL2Signature (secret : String) (timestamp : ℕ) (method path body : String) :
    Option String :=
  let message := toString timestamp ++ method ++ path ++ body
  let fixedSecret := jsReplaceChar (jsReplaceChar secret '-' '+') '_' '/'
  (atobBytes fixedSecret).map fun secretBytes =>
    let sigBytes := hmacSha256 secretBytes (utf8Bytes message)
    jsReplaceChar (jsReplaceChar (String.mk (b64Chars stdAlphabet sigBytes)) '+' '-') '/' '_'

/-- Follows the spec's words for `buildRequestSignature(secret,
timestamp, method, path, body)`: HMAC-SHA256 over
`timestamp+method+path+body`, keyed by the base64-decoded secret,
re-encoded URL-safe base64. -/
def buildRequestSignatureSpec (secret : String) (timestamp : ℕ)
    (method path body : String) : Option String :=
  (atobBytes secret).map fun key =>
    String.mk (b64Chars urlAlphabet
      (hmacSha256 key (utf8Bytes (toString timestamp ++ method ++ path ++ body))))

/-- The composite of the two output replaces. -/
def swapPM (c : Char) : Char := if c = '+' then '-' else if c = '/' then '_' else c

theorem swapPM_getD_lt : ∀ n < 64, swapPM (stdAlphabet.getD n 'A') = urlAlphabet.getD n 'A' := by
  decide

theorem swapPM_getD (n : ℕ) : swapPM (stdAlphabet.getD n 'A') = urlAlphabet.getD n 'A' := by
  by_cases h : n < 64
  · exact swapPM_getD_lt n h
  · have hstd : stdAlphabet.length ≤ n := by
      rw [show stdAlphabet.length = 64 from by decide]; omega
    have hurl : urlAlphabet.length ≤ n := by
      rw [show urlAlphabet.length = 64 from by decide]; omega
    rw [List.getD_eq_default _ _ hstd, List.getD_eq_default _ _ hurl]
    rfl

theorem b64Chars_swap :
    ∀ bs : List ℕ, (b64Chars stdAlphabet bs).map swapPM = b64Chars urlAlphabet bs
  | [] => rfl
  | [b1] => by
    simp only [b64Chars, List.map_cons, List.map_nil, swapPM_getD]
    rfl
  | [b1, b2] => by
    simp only [b64Chars, List.map_cons, List.map_nil, swapPM_getD]
    rfl
  | b1 :: b2 :: b3 :: rest => by
    simp only [b64Chars, List.map_cons, swapPM_getD, b64Chars_swap rest]

theorem jsReplaceChar_id (s : String) (a b : Char) (h : a ∉ s.data) :
    jsReplaceChar s a b = s := by
  obtain ⟨data⟩ := s
  unfold jsReplaceChar
  congr 1
  induction data with
  | nil => rfl
  | cons c cs ih =>
    have hc : ¬c = a := fun hc => h (hc ▸ List.mem_cons_self c cs)
    have hcs : a ∉ cs := fun hm => h (List.mem_cons_of_mem c hm)
    simp only [List.map_cons, if_neg hc, List.cons.injEq, true_and]
    exact ih hcs

theorem replace_b64 (bs : List ℕ) :
    jsReplaceChar (jsReplaceChar (String.mk (b64Chars stdAlphabet bs)) '+' '-') '/' '_' =
      String.mk (b64Chars urlAlphabet bs) := by
  show String.mk (((b64Chars stdAlphabet bs).map fun c => if c = '+' then '-' else c).map
      fun c => if c = '/' then '_' else c) = String.mk (b64Chars urlAlphabet bs)
  rw [List.map_map]
  have hfg : ((fun c => if c = '/' then '_' else c) ∘ fun c => if c = '+' then '-' else c) =
      swapPM := by
    funext c
    by_cases h1 : c = '+' <;> by_cases h2 : c = '/' <;>
      simp [swapPM, h1, h2, Function.comp]
  rw [hfg, b64Chars_swap]

/-- C8.  For every standard-base64 secret (no URL-safe characters, so
the source's normalization is the identity) and all timestamp, method,
path and body, the per-request signature built by `buildL2Signature`
equals the URL-safe base64 encoding of HMAC-SHA256 over the
concatenated string `timestamp+method+path+body`, keyed by the
base64-decoded secret. -/
theorem buildL2Signature_spec (secret : String) (timestamp : ℕ) (method path body : String)
    (h1 : '-' ∉ secret.data) (h2 : '_' ∉ secret.data) :
    buildL2Signature secret timestamp method path body =
      buildRequestSignatureSpec secret timestamp method path body := by
  unfold buildL2Signature buildRequestSignatureSpec
  rw [jsReplaceChar_id secret '-' '+' h1, jsReplaceChar_id secret '_' '/' h2]
  cases hd : atobBytes secret with
  | none => simp [hd]
  | some key =>
    simp only [hd, Option.map_some']
    rw [replace_b64]

theorem buildL2Signature_spec_witness :
    '-' ∉ ("c2VjcmV0" : String).data ∧ '_' ∉ ("c2VjcmV0" : String).data ∧
    buildL2Signature "c2VjcmV0" 1700000000 "POST" "/public/api/v1/order/56" "[]" =
      buildRequestSignatureSpec "c2VjcmV0" 1700000000 "POST" "/public/api/v1/order/56" "[]" :=
  ⟨by decide, by decide,
    buildL2Signature_spec "c2VjcmV0" 1700000000 "POST" "/public/api/v1/order/56" "[]"
      (by decide) (by decide)⟩

end Scoop
